import Mathlib

/-!
Shallow embedding of the assignment engine of `app.py` (amigo-secreto).

The program keeps a roster of participant names (`participantes.json`,
field `names`) and an ordered history of assignment records
(`asignaciones.json`, field `assignments`), each record a dictionary
`{name, partner, timestamp}`.  The engine operations embedded here are:

* `load_participants` — roster loading over an abstract model of the
  backing JSON source;
* `get_available_names` — roster names with no record;
* `get_partner_candidates` — the legal partner pool for a draw;
* `asignar` — the get-or-create request path (`/asignar` route, after the
  form field has been extracted);
* `admin_delete` / `admin_update` — the two mutating admin branches of the
  `/admin/asignaciones` route (after the blank-`name` guard at the top of
  the POST/DELETE handler); `route_admin_delete` / `route_admin_update`
  add that guard back, modelling the whole handler.

Side effects (writing `asignaciones.json`, regenerating the Excel export)
are modelled by the `saved` / `exported` flags of `EngineResult`; the
nondeterministic `random.choice` is modelled by an explicit `pick : Nat`
parameter selecting an index into the candidate list; `datetime.now()` is
an explicit opaque `now : String` parameter.
-/

namespace AmigoSecreto

/-- One assignment record, mirroring the JSON dictionaries
`{"name": ..., "partner": ..., "timestamp": ...}` handled by `app.py`. -/
structure Assignment where
  name : String
  partner : String
  timestamp : String
deriving DecidableEq, Repr

/-- The distinguishable failure kinds of the engine.  `invalidParticipant`
is the flash-and-redirect rejection of `/asignar`; `notFound` is the 404
of the admin branches; `invalidInput` is the 400 of the admin branches;
`configuration` is a missing/unparsable roster source; `typeFault` models
the uncaught `AttributeError` raised by `data.get` when the parsed roster
document is not a dictionary. -/
inductive AppError where
  | invalidParticipant
  | notFound
  | invalidInput
  | configuration
  | typeFault
deriving DecidableEq, Repr

/-- Result of one engine operation: the value or error produced, the
assignment history after the call, and whether the call persisted the
history (`save_assignments`) and regenerated the export (`export_to_excel`). -/
structure EngineResult (α : Type) where
  result : Except AppError α
  history : List Assignment
  saved : Bool
  exported : Bool
deriving Repr

/-- The error of an engine result, if any. -/
def EngineResult.errorOf {α : Type} (r : EngineResult α) : Option AppError :=
  match r.result with
  | .error e => some e
  | .ok _ => none

/-- The value of an engine result, if any. -/
def EngineResult.okOf {α : Type} (r : EngineResult α) : Option α :=
  match r.result with
  | .error _ => none
  | .ok v => some v

/-- The sentinel partner value assigned when no candidate remains
(`app.py` line 145). -/
def SENTINEL : String := "SIN PAREJA (no hay más participantes disponibles)"

/-- The fixed marker by which a sentinel partner is recognised
(`item["partner"].startswith("SIN PAREJA")`, `app.py` line 66). -/
def SENTINEL_MARK : String := "SIN PAREJA"

/-- Python's `str.startswith`, modelled on the underlying character
lists so that it evaluates by kernel reduction. -/
def pyStartsWith (s pre : String) : Bool :=
  pre.data.isPrefixOf s.data

/-- The ASCII whitespace characters removed by Python's `str.strip()`
(Python also strips Unicode spaces; the inputs of this program are
roster names and form fields, for which the ASCII set is the relevant
one). -/
def isSpaceChar (c : Char) : Bool :=
  (c == ' ') || (c == '\t') || (c == '\n') || (c == '\r') ||
    (c == '\x0b') || (c == '\x0c')

/-- Python's `str.strip()`: drop leading and trailing whitespace. -/
def pyStrip (s : String) : String :=
  ⟨((s.data.dropWhile isSpaceChar).reverse.dropWhile isSpaceChar).reverse⟩

/-- `get_available_names(participants, assignments)` (`app.py` 55–58):
roster names whose `name` does not occur in any record. -/
def get_available_names (participants : List String)
    (assignments : List Assignment) : List String :=
  participants.filter (fun nm => !((assignments.map (·.name)).contains nm))

/-- The set `used_partners` of `get_partner_candidates` (`app.py` 63–67):
partners that are truthy (non-empty string) and do not start with the
sentinel marker. -/
def consumedPartners (assignments : List Assignment) : List String :=
  (assignments.map (·.partner)).filter
    (fun p => p != "" && !(pyStartsWith p SENTINEL_MARK))

/-- `get_partner_candidates(selected_name, participants, assignments)`
(`app.py` 61–72): roster names other than the requester and not already
consumed as a partner. -/
def get_partner_candidates (selected_name : String)
    (participants : List String) (assignments : List Assignment) : List String :=
  participants.filter
    (fun nm => nm != selected_name && !((consumedPartners assignments).contains nm))

/-- The `/asignar` handler (`app.py` 117–164) after form extraction:
validate the requester, take the idempotent read path when a record
exists, otherwise draw a partner (the `pick`-th candidate, or the
sentinel when the pool is empty), append the record, save and export. -/
def asignar (pick : Nat) (now : String) (selected_name : String)
    (participants : List String) (assignments : List Assignment) :
    EngineResult (String × String) :=
  if selected_name = "" then
    ⟨.error .invalidParticipant, assignments, false, false⟩
  else if selected_name ∉ participants then
    ⟨.error .invalidParticipant, assignments, false, false⟩
  else
    let roulette_names := get_partner_candidates selected_name participants assignments
    match assignments.find? (fun a => a.name == selected_name) with
    | some a => ⟨.ok (selected_name, a.partner), assignments, false, false⟩
    | none =>
      let partner :=
        if roulette_names.isEmpty then SENTINEL
        else roulette_names.getD (pick % roulette_names.length) ""
      ⟨.ok (selected_name, partner),
        assignments ++ [⟨selected_name, partner, now⟩], true, true⟩

/-- The DELETE branch of `/admin/asignaciones` (`app.py` 190–197): drop
every record whose `name` matches; 404 when nothing was dropped. -/
def admin_delete (name : String) (assignments : List Assignment) :
    EngineResult String :=
  let new_assignments := assignments.filter (fun it => it.name != name)
  if new_assignments.length = assignments.length then
    ⟨.error .notFound, assignments, false, false⟩
  else
    ⟨.ok name, new_assignments, true, true⟩

/-- In-place mutation of the first record whose `name` matches, as done by
`assignment["partner"] = partner; assignment["timestamp"] = ...` on the
record found by `next(...)` (`app.py` 203–208). -/
def updateFirst (name partner now : String) : List Assignment → List Assignment
  | [] => []
  | a :: rest =>
    if a.name = name then { a with partner := partner, timestamp := now } :: rest
    else a :: updateFirst name partner now rest

/-- The update (POST) branch of `/admin/asignaciones` (`app.py` 199–211):
reject a blank `partner`, 404 when no record matches `name`, otherwise
overwrite the first matching record's partner and timestamp, save and
export. -/
def admin_update (now : String) (name rawPartner : String)
    (assignments : List Assignment) : EngineResult Assignment :=
  let partner := pyStrip rawPartner
  if partner = "" then
    ⟨.error .invalidInput, assignments, false, false⟩
  else
    match assignments.find? (fun a => a.name == name) with
    | none => ⟨.error .notFound, assignments, false, false⟩
    | some a =>
      ⟨.ok ⟨a.name, partner, now⟩, updateFirst name partner now assignments,
        true, true⟩

/-- The blank-`name` guard shared by the POST and DELETE branches
(`app.py` 186–188), composed with the DELETE branch. -/
def route_admin_delete (rawName : String) (assignments : List Assignment) :
    EngineResult String :=
  let name := pyStrip rawName
  if name = "" then ⟨.error .invalidInput, assignments, false, false⟩
  else admin_delete name assignments

/-- The blank-`name` guard shared by the POST and DELETE branches
(`app.py` 186–188), composed with the update branch. -/
def route_admin_update (now : String) (rawName rawPartner : String)
    (assignments : List Assignment) : EngineResult Assignment :=
  let name := pyStrip rawName
  if name = "" then ⟨.error .invalidInput, assignments, false, false⟩
  else admin_update now name rawPartner assignments

/-- A minimal JSON value model for the roster source document. -/
inductive Jv where
  | dict (fields : List (String × Jv))
  | arr (elems : List Jv)
  | str (s : String)
  | num (n : Int)
  | bool (b : Bool)
  | null

/-- Dictionary lookup, first binding wins (Python `dict` keys are unique;
`json.load` keeps the last duplicate, but our model documents carry each
key once). -/
def jGet : List (String × Jv) → String → Option Jv
  | [], _ => none
  | (k, v) :: rest, key => if k = key then some v else jGet rest key

/-- The state of the backing roster source `participantes.json`: absent
file, present but not valid JSON, or a parsed JSON document. -/
inductive RosterSource where
  | missing
  | unparsable
  | parsed (v : Jv)

/-- `load_participants()` (`app.py` 30–34) over the abstract source model:
a missing file raises `FileNotFoundError` and invalid JSON raises
`json.JSONDecodeError` (both `configuration` failures); a parsed
dictionary yields `data.get("names", [])`; a parsed non-dictionary makes
`data.get` raise `AttributeError` (`typeFault`). -/
def load_participants : RosterSource → Except AppError Jv
  | .missing => .error .configuration
  | .unparsable => .error .configuration
  | .parsed (.dict fields) => .ok ((jGet fields "names").getD (.arr []))
  | .parsed _ => .error .typeFault

/-- The partner drawn on the create path of `asignar` (`app.py` 143–147):
the sentinel when the pool is empty, otherwise the `pick`-th candidate. -/
def pickedPartner (pick : Nat) (selected_name : String)
    (participants : List String) (assignments : List Assignment) : String :=
  let roulette_names := get_partner_candidates selected_name participants assignments
  if roulette_names.isEmpty then SENTINEL
  else roulette_names.getD (pick % roulette_names.length) ""

/-- Histories reachable from the empty history through the engine's own
operations: `asignar` (get-or-create), `admin_update` and `admin_delete`,
over a fixed roster.  Failing calls leave the history unchanged and are
covered by the same constructors. -/
inductive EngineReaches (roster : List String) : List Assignment → Prop
  | nil : EngineReaches roster []
  | create (pick : Nat) (now n : String) {h : List Assignment} :
      EngineReaches roster h →
      EngineReaches roster (asignar pick now n roster h).history
  | upd (now name rawPartner : String) {h : List Assignment} :
      EngineReaches roster h →
      EngineReaches roster (admin_update now name rawPartner h).history
  | del (name : String) {h : List Assignment} :
      EngineReaches roster h →
      EngineReaches roster (admin_delete name h).history

/-- Histories reachable from the empty history through
`asignar` (get-or-create) and `admin_delete` only — the engine's
operations other than the `admin_update` escape hatch. -/
inductive ReachesGD (roster : List String) : List Assignment → Prop
  | nil : ReachesGD roster []
  | create (pick : Nat) (now n : String) {h : List Assignment} :
      ReachesGD roster h →
      ReachesGD roster (asignar pick now n roster h).history
  | del (name : String) {h : List Assignment} :
      ReachesGD roster h →
      ReachesGD roster (admin_delete name h).history

/-- Partner uniqueness: no non-sentinel name occurs as `partner` in more
than one record of the history. -/
def UniquePartners (h : List Assignment) : Prop :=
  ∀ p : String, pyStartsWith p SENTINEL_MARK = false →
    h.countP (fun a => a.partner == p) ≤ 1

/-- Self-exclusion: every record has `partner ≠ name`, unless the partner
is a sentinel value. -/
def SelfExcluded (h : List Assignment) : Prop :=
  ∀ a ∈ h, a.partner ≠ a.name ∨ pyStartsWith a.partner SENTINEL_MARK = true

/-- The candidate pool as worded by the (amended) specification: roster
names excluding the requester itself and excluding every name already
consumed as a non-empty, non-sentinel `partner` in the history, the
sentinel being recognised by its fixed marker.  Stated from the spec's
words, to be compared with `get_partner_candidates`. -/
def partner_candidates_spec (requester : String) (roster : List String)
    (h : List Assignment) : List String :=
  roster.filter (fun nm =>
    nm != requester &&
      !(h.any (fun a =>
        a.partner == nm && a.partner != "" &&
          !(pyStartsWith a.partner SENTINEL_MARK))))

/-! ## Shape lemmas for `asignar` -/

/-- An empty or off-roster requester is rejected without touching the
history. -/
lemma asignar_invalid (pick : Nat) (now n : String) (roster : List String)
    (h : List Assignment) (hcond : n = "" ∨ n ∉ roster) :
    asignar pick now n roster h = ⟨.error .invalidParticipant, h, false, false⟩ := by
  rcases hcond with hc | hc
  · simp [asignar, hc]
  · by_cases hne : n = ""
    · simp [asignar, hne]
    · simp [asignar, hne, hc]

/-- The idempotent read path: a valid requester with an existing record
gets that record's partner back, and nothing is written. -/
lemma asignar_read (pick : Nat) (now n : String) (roster : List String)
    (h : List Assignment) (a : Assignment) (hne : n ≠ "") (hmem : n ∈ roster)
    (hfind : h.find? (fun x => x.name == n) = some a) :
    asignar pick now n roster h = ⟨.ok (n, a.partner), h, false, false⟩ := by
  simp [asignar, hne, hmem, hfind]

/-- The create path: a valid requester with no record gets the drawn
partner appended, saved and exported. -/
lemma asignar_create (pick : Nat) (now n : String) (roster : List String)
    (h : List Assignment) (hne : n ≠ "") (hmem : n ∈ roster)
    (hfind : h.find? (fun x => x.name == n) = none) :
    asignar pick now n roster h =
      ⟨.ok (n, pickedPartner pick n roster h),
        h ++ [⟨n, pickedPartner pick n roster h, now⟩], true, true⟩ := by
  simp [asignar, pickedPartner, hne, hmem, hfind]

/-- The drawn partner is the sentinel or a member of the candidate pool. -/
lemma pickedPartner_cases (pick : Nat) (n : String) (roster : List String)
    (h : List Assignment) :
    pickedPartner pick n roster h = SENTINEL ∨
      pickedPartner pick n roster h ∈ get_partner_candidates n roster h := by
  unfold pickedPartner
  by_cases he : (get_partner_candidates n roster h).isEmpty
  · left; simp [he]
  · right
    simp only [he, if_false, Bool.false_eq_true]
    have hlen : 0 < (get_partner_candidates n roster h).length := by
      cases hc : get_partner_candidates n roster h with
      | nil => rw [hc] at he; simp at he
      | cons x xs => simp [hc]
    have hlt : pick % (get_partner_candidates n roster h).length <
        (get_partner_candidates n roster h).length := Nat.mod_lt _ hlen
    rw [List.getD_eq_getElem?_getD, List.getElem?_eq_getElem hlt]
    simp

/-- A valid requester never produces an error: both the read path and the
create path return `ok`. -/
lemma asignar_valid_no_error (pick : Nat) (now n : String)
    (roster : List String) (h : List Assignment)
    (hne : n ≠ "") (hmem : n ∈ roster) :
    (asignar pick now n roster h).errorOf = none := by
  cases hfind : h.find? (fun x => x.name == n) with
  | none => rw [asignar_create pick now n roster h hne hmem hfind]; rfl
  | some a => rw [asignar_read pick now n roster h a hne hmem hfind]; rfl

/-! ## Shape lemmas for the admin operations -/

/-- A blank (stripped) partner is rejected before anything else. -/
lemma admin_update_blank_partner (now name rawPartner : String)
    (h : List Assignment) (hpart : pyStrip rawPartner = "") :
    admin_update now name rawPartner h = ⟨.error .invalidInput, h, false, false⟩ := by
  simp [admin_update, hpart]

/-- With a non-blank partner and no matching record, the update 404s. -/
lemma admin_update_notFound (now name rawPartner : String)
    (h : List Assignment) (hpart : pyStrip rawPartner ≠ "")
    (hfind : h.find? (fun a => a.name == name) = none) :
    admin_update now name rawPartner h = ⟨.error .notFound, h, false, false⟩ := by
  simp [admin_update, hpart, hfind]

/-- With a non-blank partner and a first matching record, the update
overwrites that record, saves and exports. -/
lemma admin_update_found (now name rawPartner : String)
    (h : List Assignment) (a : Assignment) (hpart : pyStrip rawPartner ≠ "")
    (hfind : h.find? (fun a => a.name == name) = some a) :
    admin_update now name rawPartner h =
      ⟨.ok ⟨a.name, pyStrip rawPartner, now⟩,
        updateFirst name (pyStrip rawPartner) now h, true, true⟩ := by
  simp [admin_update, hpart, hfind]

/-- When filtering removes nothing, the delete 404s without writing. -/
lemma admin_delete_notFound (name : String) (h : List Assignment)
    (hlen : (h.filter (fun it => it.name != name)).length = h.length) :
    admin_delete name h = ⟨.error .notFound, h, false, false⟩ := by
  simp [admin_delete, hlen]

/-- When filtering removes something, the delete succeeds with the
filtered history, saves and exports. -/
lemma admin_delete_found (name : String) (h : List Assignment)
    (hlen : (h.filter (fun it => it.name != name)).length ≠ h.length) :
    admin_delete name h =
      ⟨.ok name, h.filter (fun it => it.name != name), true, true⟩ := by
  simp [admin_delete, hlen]

/-- The handler rejects a blank target name before loading anything. -/
lemma route_admin_update_blank_name (now rawName rawPartner : String)
    (h : List Assignment) (hname : pyStrip rawName = "") :
    route_admin_update now rawName rawPartner h =
      ⟨.error .invalidInput, h, false, false⟩ := by
  simp [route_admin_update, hname]

/-- With a non-blank target name, the handler is the update branch on the
stripped name. -/
lemma route_admin_update_eq (now rawName rawPartner : String)
    (h : List Assignment) (hname : pyStrip rawName ≠ "") :
    route_admin_update now rawName rawPartner h =
      admin_update now (pyStrip rawName) rawPartner h := by
  simp [route_admin_update, hname]

/-- The handler rejects a blank target name before loading anything. -/
lemma route_admin_delete_blank_name (rawName : String)
    (h : List Assignment) (hname : pyStrip rawName = "") :
    route_admin_delete rawName h = ⟨.error .invalidInput, h, false, false⟩ := by
  simp [route_admin_delete, hname]

/-- With a non-blank target name, the handler is the delete branch on the
stripped name. -/
lemma route_admin_delete_eq (rawName : String)
    (h : List Assignment) (hname : pyStrip rawName ≠ "") :
    route_admin_delete rawName h = admin_delete (pyStrip rawName) h := by
  simp [route_admin_delete, hname]

/-! ## Claim theorems -/

/-- C1: if a requester on the roster already has an assignment record,
`asignar` returns that record's `(name, partner)` pair, does not re-draw,
does not change any timestamp, performs no save and no export, and leaves
the history exactly as it was; hence a second call returns the identical
pair.  (The requester must also be non-empty: the engine's validation
precedes the read path, and engine-created records never carry an empty
name.) -/
theorem asignar_idempotent_read (pick pick' : Nat) (now now' : String)
    (n : String) (roster : List String) (h : List Assignment)
    (hne : n ≠ "") (hmem : n ∈ roster) (hrec : ∃ a ∈ h, a.name = n) :
    ∃ a ∈ h, a.name = n ∧
      (asignar pick now n roster h).okOf = some (n, a.partner) ∧
      (asignar pick now n roster h).history = h ∧
      (asignar pick now n roster h).saved = false ∧
      (asignar pick now n roster h).exported = false ∧
      (asignar pick' now' n roster h).okOf = (asignar pick now n roster h).okOf := by
  obtain ⟨a, ha, han⟩ := hrec
  cases hfind : h.find? (fun x => x.name == n) with
  | none =>
    exfalso
    have := List.find?_eq_none.mp hfind a ha
    simp [han] at this
  | some b =>
    refine ⟨b, List.mem_of_find?_eq_some hfind, ?_, ?_, ?_, ?_, ?_, ?_⟩
    · have := List.find?_some hfind
      simpa using this
    · rw [asignar_read pick now n roster h b hne hmem hfind]
      rfl
    · rw [asignar_read pick now n roster h b hne hmem hfind]
    · rw [asignar_read pick now n roster h b hne hmem hfind]
    · rw [asignar_read pick now n roster h b hne hmem hfind]
    · rw [asignar_read pick now n roster h b hne hmem hfind,
        asignar_read pick' now' n roster h b hne hmem hfind]

/-- C1 witness: Ana already has a record, so a repeat request returns the
recorded partner and writes nothing. -/
theorem asignar_idempotent_read_witness :
    ∃ a ∈ [Assignment.mk "Ana" "Beto" "t1"], a.name = "Ana" ∧
      (asignar 3 "t5" "Ana" ["Ana", "Beto"] [⟨"Ana", "Beto", "t1"⟩]).okOf =
        some ("Ana", a.partner) ∧
      (asignar 3 "t5" "Ana" ["Ana", "Beto"] [⟨"Ana", "Beto", "t1"⟩]).history =
        [⟨"Ana", "Beto", "t1"⟩] ∧
      (asignar 3 "t5" "Ana" ["Ana", "Beto"] [⟨"Ana", "Beto", "t1"⟩]).saved = false ∧
      (asignar 3 "t5" "Ana" ["Ana", "Beto"] [⟨"Ana", "Beto", "t1"⟩]).exported = false ∧
      (asignar 7 "t6" "Ana" ["Ana", "Beto"] [⟨"Ana", "Beto", "t1"⟩]).okOf =
        (asignar 3 "t5" "Ana" ["Ana", "Beto"] [⟨"Ana", "Beto", "t1"⟩]).okOf :=
  asignar_idempotent_read 3 7 "t5" "t6" "Ana" ["Ana", "Beto"]
    [⟨"Ana", "Beto", "t1"⟩] (by decide) (by decide)
    ⟨⟨"Ana", "Beto", "t1"⟩, by decide, rfl⟩

/-- C5: a valid first-time requester whose candidate pool is empty
receives the sentinel partner: the call succeeds (no failure is
possible on this path), the sentinel record is appended, saved and
exported. -/
theorem asignar_exhaustion_sentinel (pick : Nat) (now n : String)
    (roster : List String) (h : List Assignment)
    (hne : n ≠ "") (hmem : n ∈ roster) (hnew : ∀ a ∈ h, a.name ≠ n)
    (hempty : get_partner_candidates n roster h = []) :
    (asignar pick now n roster h).okOf = some (n, SENTINEL) ∧
      (asignar pick now n roster h).errorOf = none ∧
      (asignar pick now n roster h).history = h ++ [⟨n, SENTINEL, now⟩] ∧
      (asignar pick now n roster h).saved = true ∧
      (asignar pick now n roster h).exported = true := by
  have hfind : h.find? (fun x => x.name == n) = none := by
    rw [List.find?_eq_none]
    intro a ha
    simpa using hnew a ha
  have hp : pickedPartner pick n roster h = SENTINEL := by
    unfold pickedPartner
    simp [hempty]
  rw [asignar_create pick now n roster h hne hmem hfind, hp]
  exact ⟨rfl, rfl, rfl, rfl, rfl⟩

/-- C5 witness: a one-person roster leaves Ana no candidate, and she gets
the sentinel partner rather than an error. -/
theorem asignar_exhaustion_sentinel_witness :
    (asignar 0 "t0" "Ana" ["Ana"] []).okOf = some ("Ana", SENTINEL) ∧
      (asignar 0 "t0" "Ana" ["Ana"] []).errorOf = none ∧
      (asignar 0 "t0" "Ana" ["Ana"] []).history = [⟨"Ana", SENTINEL, "t0"⟩] ∧
      (asignar 0 "t0" "Ana" ["Ana"] []).saved = true ∧
      (asignar 0 "t0" "Ana" ["Ana"] []).exported = true :=
  asignar_exhaustion_sentinel 0 "t0" "Ana" ["Ana"] [] (by decide) (by decide)
    (by intro a ha; cases ha) (by decide)

/-- C6: `asignar` fails exactly when the requester is empty or not on the
roster; the failure kind is `invalidParticipant`, and on failure no
record is created, saved, or exported. -/
theorem asignar_requester_validation (pick : Nat) (now n : String)
    (roster : List String) (h : List Assignment) :
    ((asignar pick now n roster h).errorOf ≠ none ↔ (n = "" ∨ n ∉ roster)) ∧
      ((n = "" ∨ n ∉ roster) →
        (asignar pick now n roster h).errorOf = some .invalidParticipant ∧
          (asignar pick now n roster h).history = h ∧
          (asignar pick now n roster h).saved = false ∧
          (asignar pick now n roster h).exported = false) := by
  by_cases hcond : n = "" ∨ n ∉ roster
  · rw [asignar_invalid pick now n roster h hcond]
    exact ⟨⟨fun _ => hcond, fun _ => by simp [EngineResult.errorOf]⟩,
      fun _ => ⟨rfl, rfl, rfl, rfl⟩⟩
  · push_neg at hcond
    obtain ⟨hne, hmem⟩ := hcond
    have hnone : (asignar pick now n roster h).errorOf = none :=
      asignar_valid_no_error pick now n roster h hne hmem
    constructor
    · rw [hnone]
      constructor
      · intro hfalse; exact absurd rfl hfalse
      · rintro (hc | hc)
        · exact absurd hc hne
        · exact absurd hmem hc
    · rintro (hc | hc)
      · exact absurd hc hne
      · exact absurd hmem hc

/-- C6 witness: an off-roster requester is rejected with
`invalidParticipant` and the history is untouched. -/
theorem asignar_requester_validation_witness :
    ((asignar 2 "t7" "Zoe" ["Ana"] []).errorOf ≠ none ↔
      ("Zoe" = "" ∨ "Zoe" ∉ ["Ana"])) ∧
      (("Zoe" = "" ∨ "Zoe" ∉ ["Ana"]) →
        (asignar 2 "t7" "Zoe" ["Ana"] []).errorOf = some .invalidParticipant ∧
          (asignar 2 "t7" "Zoe" ["Ana"] []).history = [] ∧
          (asignar 2 "t7" "Zoe" ["Ana"] []).saved = false ∧
          (asignar 2 "t7" "Zoe" ["Ana"] []).exported = false) :=
  asignar_requester_validation 2 "t7" "Zoe" ["Ana"] []

/-- C9: `load_participants` fails with a `configuration` error when the
backing source is missing or is not valid structured data, while a valid
document that merely lacks the `names` field yields the empty roster
rather than a hard fault.  (The operation is a pure read: in this
embedding it takes the source and returns a value, touching no history
and no store.) -/
theorem load_participants_leniency :
    load_participants .missing = .error .configuration ∧
      load_participants .unparsable = .error .configuration ∧
      (∀ fields : List (String × Jv), jGet fields "names" = none →
        load_participants (.parsed (.dict fields)) = .ok (.arr [])) := by
  refine ⟨rfl, rfl, ?_⟩
  intro fields hnone
  simp [load_participants, hnone]

/-- C9 witness: a document with only an unrelated field loads as the
empty roster. -/
theorem load_participants_leniency_witness :
    load_participants (.parsed (.dict [("other", .null)])) = .ok (.arr []) :=
  load_participants_leniency.2.2 [("other", .null)] rfl

/-- C10: whenever `asignar`, the admin update handler, or the admin
delete handler fails — requester empty or off roster, admin target name
blank or without a record, or `partner` blank — the history is returned
exactly as it was, nothing is saved, and no export is regenerated. -/
theorem error_atomicity (pick : Nat) (now n : String) (roster : List String)
    (h : List Assignment) (rawName rawPartner : String) :
    ((asignar pick now n roster h).errorOf ≠ none →
      (asignar pick now n roster h).history = h ∧
        (asignar pick now n roster h).saved = false ∧
        (asignar pick now n roster h).exported = false) ∧
    ((route_admin_update now rawName rawPartner h).errorOf ≠ none →
      (route_admin_update now rawName rawPartner h).history = h ∧
        (route_admin_update now rawName rawPartner h).saved = false ∧
        (route_admin_update now rawName rawPartner h).exported = false) ∧
    ((route_admin_delete rawName h).errorOf ≠ none →
      (route_admin_delete rawName h).history = h ∧
        (route_admin_delete rawName h).saved = false ∧
        (route_admin_delete rawName h).exported = false) := by
  refine ⟨?_, ?_, ?_⟩
  · intro herr
    have hcond : n = "" ∨ n ∉ roster := by
      by_contra hc
      push_neg at hc
      exact herr (asignar_valid_no_error pick now n roster h hc.1 hc.2)
    rw [asignar_invalid pick now n roster h hcond]
    exact ⟨rfl, rfl, rfl⟩
  · intro herr
    by_cases hname : pyStrip rawName = ""
    · rw [route_admin_update_blank_name now rawName rawPartner h hname]
      exact ⟨rfl, rfl, rfl⟩
    · rw [route_admin_update_eq now rawName rawPartner h hname] at herr ⊢
      by_cases hpart : pyStrip rawPartner = ""
      · rw [admin_update_blank_partner now (pyStrip rawName) rawPartner h hpart]
        exact ⟨rfl, rfl, rfl⟩
      · cases hfind : h.find? (fun a => a.name == pyStrip rawName) with
        | none =>
          rw [admin_update_notFound now (pyStrip rawName) rawPartner h hpart hfind]
          exact ⟨rfl, rfl, rfl⟩
        | some a =>
          rw [admin_update_found now (pyStrip rawName) rawPartner h a hpart hfind] at herr
          exact absurd rfl herr
  · intro herr
    by_cases hname : pyStrip rawName = ""
    · rw [route_admin_delete_blank_name rawName h hname]
      exact ⟨rfl, rfl, rfl⟩
    · rw [route_admin_delete_eq rawName h hname] at herr ⊢
      by_cases hlen : (h.filter (fun it => it.name != pyStrip rawName)).length = h.length
      · rw [admin_delete_notFound (pyStrip rawName) h hlen]
        exact ⟨rfl, rfl, rfl⟩
      · rw [admin_delete_found (pyStrip rawName) h hlen] at herr
        exact absurd rfl herr

/-- C10 witness: a rejected requester, a blank admin target and a blank
partner all leave the (empty) history unchanged with no save and no
export. -/
theorem error_atomicity_witness :
    (asignar 0 "t8" "" ["Ana"] []).history = [] ∧
      (asignar 0 "t8" "" ["Ana"] []).saved = false ∧
      (asignar 0 "t8" "" ["Ana"] []).exported = false :=
  (error_atomicity 0 "t8" "" ["Ana"] [] " " "x").1 (by decide)

/-- Membership in the consumed-partner pool, phrased as a single scan of
the history. -/
lemma contains_consumedPartners (h : List Assignment) (nm : String) :
    (consumedPartners h).contains nm =
      h.any (fun a =>
        a.partner == nm && a.partner != "" &&
          !(pyStartsWith a.partner SENTINEL_MARK)) := by
  rw [Bool.eq_iff_iff, List.elem_iff]
  simp only [consumedPartners, List.any_eq_true, List.mem_filter, List.mem_map,
    Bool.and_eq_true, bne_iff_ne, ne_eq, Bool.not_eq_true', beq_iff_eq]
  constructor
  · rintro ⟨⟨a, ha, rfl⟩, hne, hsw⟩
    exact ⟨a, ha, ⟨rfl, hne⟩, hsw⟩
  · rintro ⟨a, ha, ⟨heq, hne⟩, hsw⟩
    subst heq
    exact ⟨⟨a, ha, rfl⟩, hne, hsw⟩

/-- C4 counterexample: with roster `["A", ""]` and a history whose single
record has the empty string as partner, the empty string was consumed as
a partner and does not carry the sentinel marker, yet
`get_partner_candidates` still offers it as a candidate (the code also
requires a partner to be truthy before counting it as consumed). -/
theorem partner_candidates_claim_cex :
    get_partner_candidates "A" ["A", ""]
        [Assignment.mk "B" "" "t"] = [""] ∧
      (∃ a ∈ [Assignment.mk "B" "" "t"], a.partner = "") ∧
      pyStartsWith "" SENTINEL_MARK = false := by
  refine ⟨by decide, ⟨⟨"B", "", "t"⟩, by decide, rfl⟩, by decide⟩

/-- C4 (amended): `get_partner_candidates` returns exactly the roster
names other than the requester that were not consumed as a non-empty,
non-sentinel partner, the sentinel being recognised by its fixed
marker. -/
theorem partner_candidates_eq_spec (requester : String)
    (roster : List String) (h : List Assignment) :
    get_partner_candidates requester roster h =
      partner_candidates_spec requester roster h := by
  unfold get_partner_candidates partner_candidates_spec
  apply List.filter_congr
  intro nm _
  rw [contains_consumedPartners h nm]

/-- Filtering preserves the length exactly when it removes nothing. -/
lemma filter_length_eq_iff {α : Type} (p : α → Bool) (l : List α) :
    (l.filter p).length = l.length ↔ ∀ a ∈ l, p a = true := by
  constructor
  · intro hlen
    have heq : l.filter p = l := (List.filter_sublist l).eq_of_length hlen
    exact List.filter_eq_self.mp heq
  · intro hall
    rw [List.filter_eq_self.mpr hall]

/-- C8: `admin_delete` fails with `notFound` exactly when no record with
the given `name` exists; on success it removes the records matching
`name` and keeps every other record, so the deleted name reappears in
`get_available_names` while the remaining records (and hence the other
participants' consumed partners) are untouched. -/
theorem admin_delete_contract (name : String) (h : List Assignment)
    (roster : List String) :
    ((admin_delete name h).errorOf = some .notFound ↔ ∀ a ∈ h, a.name ≠ name) ∧
      ((∃ a ∈ h, a.name = name) →
        (admin_delete name h).errorOf = none ∧
          (admin_delete name h).history = h.filter (fun it => it.name != name) ∧
          (∀ a ∈ h, a.name ≠ name → a ∈ (admin_delete name h).history) ∧
          (∀ a ∈ (admin_delete name h).history, a ∈ h ∧ a.name ≠ name) ∧
          (name ∈ roster →
            name ∈ get_available_names roster (admin_delete name h).history)) := by
  have key : (h.filter (fun it => it.name != name)).length = h.length ↔
      ∀ a ∈ h, a.name ≠ name := by
    rw [filter_length_eq_iff]
    constructor
    · intro hall a ha
      simpa using hall a ha
    · intro hall a ha
      simpa using hall a ha
  constructor
  · by_cases hlen : (h.filter (fun it => it.name != name)).length = h.length
    · rw [admin_delete_notFound name h hlen]
      exact ⟨fun _ => key.mp hlen, fun _ => rfl⟩
    · rw [admin_delete_found name h hlen]
      constructor
      · intro hfalse
        exact absurd hfalse (by simp [EngineResult.errorOf])
      · intro hall
        exact absurd (key.mpr hall) hlen
  · intro hex
    have hlen : (h.filter (fun it => it.name != name)).length ≠ h.length := by
      intro hlen
      obtain ⟨a, ha, han⟩ := hex
      exact key.mp hlen a ha han
    rw [admin_delete_found name h hlen]
    refine ⟨rfl, rfl, ?_, ?_, ?_⟩
    · intro a ha han
      exact List.mem_filter.mpr ⟨ha, by simpa using han⟩
    · intro a ha
      have := List.mem_filter.mp ha
      exact ⟨this.1, by simpa using this.2⟩
    · intro hro
      unfold get_available_names
      apply List.mem_filter.mpr
      refine ⟨hro, ?_⟩
      simp only [Bool.not_eq_eq_eq_not, Bool.not_true]
      rw [Bool.eq_false_iff]
      intro hcont
      rw [List.elem_iff] at hcont
      obtain ⟨a, ha, han⟩ := List.mem_map.mp hcont
      have := (List.mem_filter.mp ha).2
      rw [han] at this
      simp at this

/-- C8 witness: deleting Ana's record succeeds, leaves Beto's record in
place, and makes Ana available again. -/
theorem admin_delete_contract_witness :
    (admin_delete "Ana" [⟨"Ana", "Beto", "t1"⟩, ⟨"Beto", "Ana", "t2"⟩]).errorOf
        = none ∧
      (admin_delete "Ana" [⟨"Ana", "Beto", "t1"⟩, ⟨"Beto", "Ana", "t2"⟩]).history
        = [⟨"Beto", "Ana", "t2"⟩] ∧
      "Ana" ∈ get_available_names ["Ana", "Beto"]
        (admin_delete "Ana" [⟨"Ana", "Beto", "t1"⟩, ⟨"Beto", "Ana", "t2"⟩]).history := by
  obtain ⟨he, hh, _, _, hav⟩ :=
    (admin_delete_contract "Ana" [⟨"Ana", "Beto", "t1"⟩, ⟨"Beto", "Ana", "t2"⟩]
      ["Ana", "Beto"]).2 ⟨⟨"Ana", "Beto", "t1"⟩, by decide, rfl⟩
  exact ⟨he, hh.trans (by decide), hav (by decide)⟩

/-- `find?` returns the head of the first match. -/
lemma find_first_match {α : Type} (p : α → Bool) (l1 : List α) (a : α)
    (l2 : List α) (ha : p a = true) (hl1 : ∀ b ∈ l1, p b = false) :
    (l1 ++ a :: l2).find? p = some a := by
  induction l1 with
  | nil =>
    rw [List.nil_append]
    exact List.find?_cons_of_pos l2 ha
  | cons b t ih =>
    rw [List.cons_append,
      List.find?_cons_of_neg _ (by simp [hl1 b (List.mem_cons_self b t)])]
    exact ih fun c hc => hl1 c (List.mem_cons_of_mem b hc)

/-- `updateFirst` rewrites exactly the first matching record. -/
lemma updateFirst_append (name partner now : String) (l1 : List Assignment)
    (a : Assignment) (l2 : List Assignment) (ha : a.name = name)
    (hl1 : ∀ b ∈ l1, b.name ≠ name) :
    updateFirst name partner now (l1 ++ a :: l2) =
      l1 ++ { a with partner := partner, timestamp := now } :: l2 := by
  induction l1 with
  | nil =>
    simp [updateFirst, ha]
  | cons b t ih =>
    have hb : b.name ≠ name := hl1 b (List.mem_cons_self b t)
    rw [List.cons_append, updateFirst, if_neg hb, List.cons_append,
      ih fun c hc => hl1 c (List.mem_cons_of_mem b hc)]

/-- C7 counterexample: when `new_partner` is blank *and* no record for
`name` exists, the code rejects the request with `invalidInput` (the
blank-partner check runs first), not with `notFound` as the claim's
not-found clause requires. -/
theorem admin_update_precedence_cex :
    (admin_update "t" "Ana" "" ([] : List Assignment)).errorOf =
        some .invalidInput ∧
      (admin_update "t" "Ana" "" ([] : List Assignment)).errorOf ≠
        some .notFound ∧
      (∀ a ∈ ([] : List Assignment), a.name ≠ "Ana") := by
  refine ⟨by decide, by decide, ?_⟩
  intro a ha
  cases ha

/-- C7 (amended): `admin_update` strips `new_partner`; a blank result is
rejected with `invalidInput` before anything else (even when no record
for `name` exists) and the history is untouched; otherwise it fails with
`notFound` exactly when no record for `name` exists, and on success it
overwrites the first record matching `name` with the stripped partner
and the fresh timestamp, leaving every record before and after it
unchanged. -/
theorem admin_update_contract (now name rawPartner : String)
    (h : List Assignment) :
    (pyStrip rawPartner = "" →
      (admin_update now name rawPartner h).errorOf = some .invalidInput ∧
        (admin_update now name rawPartner h).history = h) ∧
      (pyStrip rawPartner ≠ "" →
        ((admin_update now name rawPartner h).errorOf = some .notFound ↔
          ∀ a ∈ h, a.name ≠ name) ∧
        (∀ (l1 : List Assignment) (a : Assignment) (l2 : List Assignment),
          h = l1 ++ a :: l2 → a.name = name → (∀ b ∈ l1, b.name ≠ name) →
          (admin_update now name rawPartner h).errorOf = none ∧
            (admin_update now name rawPartner h).history =
              l1 ++
                { a with partner := pyStrip rawPartner, timestamp := now } ::
                  l2 ∧
            (admin_update now name rawPartner h).okOf =
              some ⟨a.name, pyStrip rawPartner, now⟩)) := by
  constructor
  · intro hpart
    rw [admin_update_blank_partner now name rawPartner h hpart]
    exact ⟨rfl, rfl⟩
  · intro hpart
    constructor
    · cases hfind : h.find? (fun a => a.name == name) with
      | none =>
        rw [admin_update_notFound now name rawPartner h hpart hfind]
        have hall : ∀ a ∈ h, a.name ≠ name := by
          intro a ha
          simpa using List.find?_eq_none.mp hfind a ha
        exact ⟨fun _ => hall, fun _ => rfl⟩
      | some a =>
        rw [admin_update_found now name rawPartner h a hpart hfind]
        constructor
        · intro hfalse
          exact absurd hfalse (by simp [EngineResult.errorOf])
        · intro hall
          have hmem := List.mem_of_find?_eq_some hfind
          have := List.find?_some hfind
          exact absurd (by simpa using this) (hall a hmem)
    · intro l1 a l2 hsplit haname hl1
      have hfind : h.find? (fun x => x.name == name) = some a := by
        rw [hsplit]
        exact find_first_match _ l1 a l2 (by simpa using haname)
          fun b hb => by simpa using hl1 b hb
      rw [admin_update_found now name rawPartner h a hpart hfind, hsplit,
        updateFirst_append name (pyStrip rawPartner) now l1 a l2 haname hl1]
      exact ⟨rfl, rfl, rfl⟩

/-- C7 witness: updating Ana's record with partner `"Cruz"` succeeds,
rewrites only her record and refreshes its timestamp. -/
theorem admin_update_contract_witness :
    (admin_update "t9" "Ana" "Cruz"
        [⟨"Beto", "x", "t0"⟩, ⟨"Ana", "Beto", "t1"⟩]).errorOf = none ∧
      (admin_update "t9" "Ana" "Cruz"
        [⟨"Beto", "x", "t0"⟩, ⟨"Ana", "Beto", "t1"⟩]).history =
        [⟨"Beto", "x", "t0"⟩] ++
          { Assignment.mk "Ana" "Beto" "t1" with partner := pyStrip "Cruz", timestamp := "t9" } ::
            [] ∧
      (admin_update "t9" "Ana" "Cruz"
        [⟨"Beto", "x", "t0"⟩, ⟨"Ana", "Beto", "t1"⟩]).okOf =
        some ⟨(Assignment.mk "Ana" "Beto" "t1").name, pyStrip "Cruz", "t9"⟩ :=
  ((admin_update_contract "t9" "Ana" "Cruz"
      [⟨"Beto", "x", "t0"⟩, ⟨"Ana", "Beto", "t1"⟩]).2 (by decide)).2
    [⟨"Beto", "x", "t0"⟩] ⟨"Ana", "Beto", "t1"⟩ [] rfl rfl (by decide)

/-- An `asignar` call either leaves the history unchanged or appends one
record for a valid requester, whose partner is the drawn one. -/
lemma asignar_history_cases (pick : Nat) (now n : String)
    (roster : List String) (h : List Assignment) :
    (asignar pick now n roster h).history = h ∨
      ((asignar pick now n roster h).history =
          h ++ [⟨n, pickedPartner pick n roster h, now⟩] ∧
        n ∈ roster ∧ n ≠ "") := by
  by_cases hcond : n = "" ∨ n ∉ roster
  · left
    rw [asignar_invalid pick now n roster h hcond]
  · push_neg at hcond
    obtain ⟨hne, hmem⟩ := hcond
    cases hfind : h.find? (fun x => x.name == n) with
    | some a =>
      left
      rw [asignar_read pick now n roster h a hne hmem hfind]
    | none =>
      right
      rw [asignar_create pick now n roster h hne hmem hfind]
      exact ⟨rfl, hmem, hne⟩

/-- An `admin_delete` call either leaves the history unchanged or filters
out the records matching the name. -/
lemma admin_delete_history_cases (name : String) (h : List Assignment) :
    (admin_delete name h).history = h ∨
      (admin_delete name h).history = h.filter (fun it => it.name != name) := by
  by_cases hlen : (h.filter (fun it => it.name != name)).length = h.length
  · left
    rw [admin_delete_notFound name h hlen]
  · right
    rw [admin_delete_found name h hlen]

/-- A candidate is a roster member, differs from the requester, and was
not consumed as a partner. -/
lemma candidate_not_consumed {n : String} {roster : List String}
    {h : List Assignment} {c : String}
    (hc : c ∈ get_partner_candidates n roster h) :
    c ∈ roster ∧ c ≠ n ∧ ((consumedPartners h).contains c) = false := by
  unfold get_partner_candidates at hc
  obtain ⟨hro, hcond⟩ := List.mem_filter.mp hc
  rw [Bool.and_eq_true] at hcond
  exact ⟨hro, by simpa using hcond.1, by simpa using hcond.2⟩

/-- A non-empty, non-sentinel name that is not in the consumed pool does
not occur as a partner in the history at all. -/
lemma not_consumed_countP {h : List Assignment} {c : String}
    (hcne : c ≠ "") (hcsent : pyStartsWith c SENTINEL_MARK = false)
    (hnc : ((consumedPartners h).contains c) = false) :
    h.countP (fun a => a.partner == c) = 0 := by
  rw [List.countP_eq_zero]
  intro a ha hp
  have hmemc : c ∈ consumedPartners h := by
    unfold consumedPartners
    apply List.mem_filter.mpr
    refine ⟨List.mem_map.mpr ⟨a, ha, beq_iff_eq.mp hp⟩, ?_⟩
    simp [hcne, hcsent]
  have hcontains : (consumedPartners h).contains c = true :=
    List.elem_iff.mpr hmemc
  rw [hcontains] at hnc
  cases hnc

/-- C2 counterexample: `admin_update` validates nothing about the new
partner, so a history in which the non-sentinel name `"Cruz"` is the
partner of two records is reachable from the empty history through the
engine's own operations (two `asignar` draws interleaved with two admin
updates), violating partner uniqueness.  Moreover, even without
`admin_update`, a roster containing the empty-string name breaks
uniqueness: an empty partner fails the code's truthiness check, is never
counted as consumed, and can be drawn twice. -/
theorem partner_uniqueness_engine_cex :
    (EngineReaches ["Ana", "Beto", "Cruz"]
        [⟨"Ana", "Cruz", "t2"⟩, ⟨"Beto", "Cruz", "t4"⟩] ∧
      ¬ UniquePartners [⟨"Ana", "Cruz", "t2"⟩, ⟨"Beto", "Cruz", "t4"⟩]) ∧
      (ReachesGD ["Ana", "Beto", ""] [⟨"Ana", "", "t1"⟩, ⟨"Beto", "", "t2"⟩] ∧
        ¬ UniquePartners [⟨"Ana", "", "t1"⟩, ⟨"Beto", "", "t2"⟩]) := by
  refine ⟨⟨?_, ?_⟩, ?_, ?_⟩
  · have s1 := EngineReaches.create 0 "t1" "Ana"
      (EngineReaches.nil : EngineReaches ["Ana", "Beto", "Cruz"] [])
    rw [show (asignar 0 "t1" "Ana" ["Ana", "Beto", "Cruz"] []).history =
      [⟨"Ana", "Beto", "t1"⟩] from by decide] at s1
    have s2 := EngineReaches.upd "t2" "Ana" "Cruz" s1
    rw [show (admin_update "t2" "Ana" "Cruz" [⟨"Ana", "Beto", "t1"⟩]).history =
      [⟨"Ana", "Cruz", "t2"⟩] from by decide] at s2
    have s3 := EngineReaches.create 0 "t3" "Beto" s2
    rw [show (asignar 0 "t3" "Beto" ["Ana", "Beto", "Cruz"]
        [⟨"Ana", "Cruz", "t2"⟩]).history =
      [⟨"Ana", "Cruz", "t2"⟩, ⟨"Beto", "Ana", "t3"⟩] from by decide] at s3
    have s4 := EngineReaches.upd "t4" "Beto" "Cruz" s3
    rw [show (admin_update "t4" "Beto" "Cruz"
        [⟨"Ana", "Cruz", "t2"⟩, ⟨"Beto", "Ana", "t3"⟩]).history =
      [⟨"Ana", "Cruz", "t2"⟩, ⟨"Beto", "Cruz", "t4"⟩] from by decide] at s4
    exact s4
  · intro hU
    exact absurd (hU "Cruz" (by decide)) (by decide)
  · have s1 := ReachesGD.create 1 "t1" "Ana"
      (ReachesGD.nil : ReachesGD ["Ana", "Beto", ""] [])
    rw [show (asignar 1 "t1" "Ana" ["Ana", "Beto", ""] []).history =
      [⟨"Ana", "", "t1"⟩] from by decide] at s1
    have s2 := ReachesGD.create 1 "t2" "Beto" s1
    rw [show (asignar 1 "t2" "Beto" ["Ana", "Beto", ""]
        [⟨"Ana", "", "t1"⟩]).history =
      [⟨"Ana", "", "t1"⟩, ⟨"Beto", "", "t2"⟩] from by decide] at s2
    exact s2
  · intro hU
    exact absurd (hU "" (by decide)) (by decide)

/-- C2 (amended): for every history reachable from the empty history
through `asignar` and `admin_delete` only (the engine's operations
without the `admin_update` escape hatch), over a roster with no empty
name, no non-sentinel name occurs as `partner` in more than one
record. -/
theorem partner_uniqueness_no_update (roster : List String)
    (hro : ∀ nm ∈ roster, nm ≠ "") (h : List Assignment)
    (hr : ReachesGD roster h) : UniquePartners h := by
  induction hr with
  | nil =>
    intro p hp
    simp
  | @create pick now n h _ ih =>
    rcases asignar_history_cases pick now n roster h with hcase | ⟨hcase, hmem, hne⟩
    · rw [hcase]
      exact ih
    · rw [hcase]
      intro p hp
      rw [List.countP_append]
      rcases pickedPartner_cases pick n roster h with hs | hc
      · have hzero : (List.countP (fun (a : Assignment) => a.partner == p)
            [⟨n, pickedPartner pick n roster h, now⟩]) = 0 := by
          rw [List.countP_eq_zero]
          intro a ha hpa
          have ha' : a = ⟨n, pickedPartner pick n roster h, now⟩ := by simpa using ha
          rw [ha'] at hpa
          have : SENTINEL = p := by
            rw [← hs]
            exact beq_iff_eq.mp hpa
          rw [← this] at hp
          exact absurd hp (by decide)
        rw [hzero, Nat.add_zero]
        exact ih p hp
      · by_cases heq : pickedPartner pick n roster h = p
        · obtain ⟨hcro, hcnen, hnc⟩ := candidate_not_consumed hc
          rw [heq] at hnc
          have hzero : h.countP (fun a => a.partner == p) = 0 :=
            not_consumed_countP (heq ▸ hro _ hcro) hp hnc
          rw [hzero, Nat.zero_add]
          exact Nat.le_trans (List.countP_le_length _) (by simp)
        · have hzero : (List.countP (fun (a : Assignment) => a.partner == p)
              [⟨n, pickedPartner pick n roster h, now⟩]) = 0 := by
            rw [List.countP_eq_zero]
            intro a ha hpa
            have ha' : a = ⟨n, pickedPartner pick n roster h, now⟩ := by simpa using ha
            rw [ha'] at hpa
            exact heq (beq_iff_eq.mp hpa)
          rw [hzero, Nat.add_zero]
          exact ih p hp
  | @del name h _ ih =>
    rcases admin_delete_history_cases name h with hcase | hcase <;> rw [hcase]
    · exact ih
    · intro p hp
      exact Nat.le_trans (List.Sublist.countP_le _ (List.filter_sublist h)) (ih p hp)

/-- C2 witness: the history produced by one first-time draw on the roster
`["Ana", "Beto"]` satisfies partner uniqueness. -/
theorem partner_uniqueness_no_update_witness :
    UniquePartners (asignar 0 "t1" "Ana" ["Ana", "Beto"] []).history :=
  partner_uniqueness_no_update ["Ana", "Beto"] (by decide) _
    (ReachesGD.create 0 "t1" "Ana" ReachesGD.nil)

/-- C3 counterexample: `admin_update` accepts the requester's own name as
the new partner, so a history containing a record with
`partner = name = "Ana"` (and no sentinel marker) is reachable through
the engine's own operations, violating self-exclusion. -/
theorem self_exclusion_engine_cex :
    EngineReaches ["Ana", "Beto"] [⟨"Ana", "Ana", "t2"⟩] ∧
      ¬ SelfExcluded [⟨"Ana", "Ana", "t2"⟩] := by
  constructor
  · have s1 := EngineReaches.create 0 "t1" "Ana"
      (EngineReaches.nil : EngineReaches ["Ana", "Beto"] [])
    rw [show (asignar 0 "t1" "Ana" ["Ana", "Beto"] []).history =
      [⟨"Ana", "Beto", "t1"⟩] from by decide] at s1
    have s2 := EngineReaches.upd "t2" "Ana" "Ana" s1
    rw [show (admin_update "t2" "Ana" "Ana" [⟨"Ana", "Beto", "t1"⟩]).history =
      [⟨"Ana", "Ana", "t2"⟩] from by decide] at s2
    exact s2
  · intro hS
    rcases hS ⟨"Ana", "Ana", "t2"⟩ (by simp) with hne | hsw
    · exact hne rfl
    · exact absurd hsw (by decide)

/-- C3 (amended): for every history reachable from the empty history
through `asignar` and `admin_delete` only (the engine's operations
without the `admin_update` escape hatch), every record satisfies
`partner ≠ name` unless the partner carries the sentinel marker. -/
theorem self_exclusion_no_update (roster : List String) (h : List Assignment)
    (hr : ReachesGD roster h) : SelfExcluded h := by
  induction hr with
  | nil =>
    intro a ha
    cases ha
  | @create pick now n h _ ih =>
    rcases asignar_history_cases pick now n roster h with hcase | ⟨hcase, hmem, hne⟩
    · rw [hcase]
      exact ih
    · rw [hcase]
      intro a ha
      rcases List.mem_append.mp ha with hin | hin
      · exact ih a hin
      · have ha' : a = ⟨n, pickedPartner pick n roster h, now⟩ := by simpa using hin
        subst ha'
        rcases pickedPartner_cases pick n roster h with hs | hc
        · right
          show pyStartsWith (pickedPartner pick n roster h) SENTINEL_MARK = true
          rw [hs]
          decide
        · left
          obtain ⟨_, hcnen, _⟩ := candidate_not_consumed hc
          exact hcnen
  | @del name h _ ih =>
    rcases admin_delete_history_cases name h with hcase | hcase <;> rw [hcase]
    · exact ih
    · intro a ha
      exact ih a (List.mem_filter.mp ha).1

/-- C3 witness: the history produced by one first-time draw on the roster
`["Ana", "Beto"]` satisfies self-exclusion. -/
theorem self_exclusion_no_update_witness :
    SelfExcluded (asignar 0 "tw" "Beto" ["Ana", "Beto"] []).history :=
  self_exclusion_no_update ["Ana", "Beto"] _
    (ReachesGD.create 0 "tw" "Beto" ReachesGD.nil)

end AmigoSecreto
